import Mathlib

/-!
Shallow embedding of the training/evaluation loop logic of
`FinalProject/code/qa_model.py` (class `QAModel`), together with proofs of the
specified properties.  Losses and scores are modelled as rationals; batches of
examples as lists; fallible operations return `Option` or `Except`.
-/

/-! ### Exponentially smoothed loss (`QAModel.custom_train`, lines 519-522)

The Python code is
`if not exp_loss: exp_loss = loss else: exp_loss = 0.99*exp_loss + 0.01*loss`,
where `exp_loss` starts as `None`.  Python truthiness makes `not exp_loss`
true both for `None` and for the float `0.0`, so the seed branch also fires
when the previous smoothed value is exactly zero. -/

def update_exp_loss : Option ℚ → ℚ → ℚ
  | none, loss => loss
  | some l, loss => if l = 0 then loss else 99 / 100 * l + 1 / 100 * loss

/-- Running value of `exp_loss` after folding the raw per-batch losses. -/
def exp_loss_run (losses : List ℚ) : Option ℚ :=
  losses.foldl (fun e x => some (update_exp_loss e x)) none

/-- The smoothing update as the spec words it: the seed case applies only at
the first observation (`exp_loss = None`); every later observation applies
`0.99 * L + 0.01 * x` unconditionally. -/
def spec_update_exp_loss : Option ℚ → ℚ → ℚ
  | none, loss => loss
  | some l, loss => 99 / 100 * l + 1 / 100 * loss

/-- Running smoothed loss under the spec's update rule. -/
def spec_exp_loss_run (losses : List ℚ) : Option ℚ :=
  losses.foldl (fun e x => some (spec_update_exp_loss e x)) none

/-! ### Dev-set loss (`QAModel.custom_get_dev_loss`, lines 378-414)

The loop appends `loss * curr_batch_size` to `loss_per_batch` and
`curr_batch_size` to `batch_lengths`, then returns
`sum(loss_per_batch) / float(sum(batch_lengths))`.  The division has no
guard: on an empty batch sequence Python raises `ZeroDivisionError`, embedded
here as `none`. -/

def custom_get_dev_loss (batches : List (ℚ × ℕ)) : Option ℚ :=
  let loss_per_batch : List ℚ := batches.map fun b => b.1 * (b.2 : ℚ)
  let batch_lengths : List ℕ := batches.map fun b => b.2
  let total_num_examples : ℕ := batch_lengths.sum
  if total_num_examples = 0 then none
  else some (loss_per_batch.sum / (total_num_examples : ℚ))

/-! ### Theorems for C1 (smoothed loss) -/

/-- C1: the claim's update law fails on the code.  With raw losses `[0, 5]`
the first observation seeds the smoothed loss to `0`; at the second
observation the code re-seeds to `5` (since `not exp_loss` is true for `0.0`),
while the claimed law `0.99*L + 0.01*x` yields `1/20`. -/
theorem exp_loss_zero_reseeds :
    exp_loss_run [0, 5] = some 5 ∧
    spec_exp_loss_run [0, 5] = some (1 / 20) ∧
    update_exp_loss (some 0) 5 = 5 ∧ (5 : ℚ) ≠ 1 / 20 := by
  refine ⟨rfl, ?_, rfl, by norm_num⟩
  show some (spec_update_exp_loss (some 0) 5) = some (1 / 20)
  norm_num [spec_update_exp_loss]

/-! ### Theorems for C2 (weighted dev loss) -/

/-- C2: `custom_get_dev_loss` returns the batch-size-weighted average
`sum(loss_i * size_i) / sum(size_i)`; on sizes `[3, 1]` with losses
`[2, 10]` it returns `4`; and on uniform batch sizes it equals the simple
mean of the per-batch losses. -/
theorem custom_get_dev_loss_weighted_mean :
    (∀ batches : List (ℚ × ℕ), (batches.map fun b : ℚ × ℕ => b.2).sum ≠ 0 →
      custom_get_dev_loss batches =
        some ((batches.map fun b => b.1 * (b.2 : ℚ)).sum /
          (((batches.map fun b : ℚ × ℕ => b.2).sum : ℕ) : ℚ))) ∧
    custom_get_dev_loss [(2, 3), (10, 1)] = some 4 ∧
    (∀ (losses : List ℚ) (s : ℕ), 0 < s → losses ≠ [] →
      custom_get_dev_loss (losses.map fun l => (l, s)) =
        some (losses.sum / (losses.length : ℚ))) := by
  refine ⟨fun batches h => by simp only [custom_get_dev_loss]; rw [if_neg h],
    by norm_num [custom_get_dev_loss], ?_⟩
  intro losses s hs hne
  have hlen : losses.length ≠ 0 := by simpa [List.length_eq_zero] using hne
  have hsQ : (s : ℚ) ≠ 0 := Nat.cast_ne_zero.mpr hs.ne'
  have hlQ : (losses.length : ℚ) ≠ 0 := Nat.cast_ne_zero.mpr hlen
  have h1 : (losses.map fun l => l * (s : ℚ)).sum = losses.sum * (s : ℚ) := by
    have h := List.sum_map_mul_right losses id (s : ℚ)
    simpa using h
  have hts : losses.length * s ≠ 0 := Nat.mul_ne_zero hlen hs.ne'
  simp only [custom_get_dev_loss, List.map_map, Function.comp_def]
  simp only [List.map_const', List.sum_replicate, smul_eq_mul, h1, hts, if_false]
  congr 1
  push_cast
  field_simp
  ring

/-- Witness for the weighted-mean theorem at batches `[(2,3),(10,1)]` and at
uniform batch size `2` with losses `[1, 3]`. -/
theorem custom_get_dev_loss_weighted_mean_witness :
    custom_get_dev_loss [((2 : ℚ), 3), (10, 1)] =
      some (([((2 : ℚ), 3), (10, 1)].map fun b => b.1 * (b.2 : ℚ)).sum /
        ((([((2 : ℚ), 3), (10, 1)].map fun b : ℚ × ℕ => b.2).sum : ℕ) : ℚ)) ∧
    custom_get_dev_loss ([(1 : ℚ), 3].map fun l => (l, 2)) =
      some (([(1 : ℚ), 3] : List ℚ).sum / ((([(1 : ℚ), 3] : List ℚ).length : ℕ) : ℚ)) :=
  ⟨custom_get_dev_loss_weighted_mean.1 [(2, 3), (10, 1)] (by norm_num),
   custom_get_dev_loss_weighted_mean.2.2 [1, 3] 2 (by norm_num) (by simp)⟩

/-! ### Sampled scoring (`QAModel.check_score_cm`, lines 417-463)

The loop keeps `rem_count = num_samples`; per batch it appends the batch's
predicted/actual label pairs.  With `num_samples == 0` every batch is taken
in full.  Otherwise, a batch with `rem_count >= batch_size` is taken whole
and `rem_count` decremented; a larger batch is truncated to `rem_count`
pairs with `rem_count = 0`; and the loop breaks as soon as `rem_count == 0`.
The second component counts the batches consumed before the loop stopped. -/

def check_score_cm_go {P : Type} (num_samples : ℕ) : ℕ → List (List P) → List P × ℕ
  | _, [] => ([], 0)
  | rem, b :: bs =>
    if num_samples = 0 then
      let r := check_score_cm_go num_samples rem bs
      (b ++ r.1, r.2 + 1)
    else if b.length ≤ rem then
      if rem - b.length = 0 then (b, 1)
      else
        let r := check_score_cm_go num_samples (rem - b.length) bs
        (b ++ r.1, r.2 + 1)
    else (b.take rem, 1)

/-- The accumulated (predicted, actual) pairs and the number of batches the
loop consumed, starting from `rem_count = num_samples`. -/
def check_score_cm_pairs {P : Type} (num_samples : ℕ) (batches : List (List P)) :
    List P × ℕ :=
  check_score_cm_go num_samples num_samples batches

/-- `check_score_cm` ends by applying the external scoring function
(`report_score`) to the collected pairs. -/
def check_score_cm {P S : Type} (score : List P → S) (num_samples : ℕ)
    (batches : List (List P)) : S :=
  score (check_score_cm_pairs num_samples batches).1

theorem check_score_cm_go_all {P : Type} (rem : ℕ) (batches : List (List P)) :
    check_score_cm_go 0 rem batches = (batches.flatten, batches.length) := by
  induction batches generalizing rem with
  | nil => rfl
  | cons b bs ih => simp [check_score_cm_go, ih]

theorem check_score_cm_go_length {P : Type} (n : ℕ) (batches : List (List P))
    (hn : 0 < n) :
    ((check_score_cm_go n n batches).1).length = min n batches.flatten.length := by
  have key : ∀ (bs : List (List P)) (rem : ℕ), 0 < rem →
      ((check_score_cm_go n rem bs).1).length = min rem bs.flatten.length := by
    intro bs
    induction bs with
    | nil => intro rem _; simp [check_score_cm_go]
    | cons b tl ih =>
      intro rem hrem
      by_cases hb : b.length ≤ rem
      · by_cases hz : rem - b.length = 0
        · simp only [check_score_cm_go, hn.ne', if_false, hb, if_true, hz]
          simp
          omega
        · simp only [check_score_cm_go, hn.ne', if_false, hb, if_true, hz]
          simp [ih (rem - b.length) (by omega)]
          omega
      · simp only [check_score_cm_go, hn.ne', if_false, hb]
        simp
        omega
  exact key batches n hn

theorem check_score_cm_go_over {P : Type} (n : ℕ) (batches : List (List P))
    (h : batches.flatten.length < n) :
    check_score_cm_go n n batches = (batches.flatten, batches.length) := by
  have hn : n ≠ 0 := by omega
  have key : ∀ (bs : List (List P)) (rem : ℕ), bs.flatten.length < rem →
      check_score_cm_go n rem bs = (bs.flatten, bs.length) := by
    intro bs
    induction bs with
    | nil => intro rem _; simp [check_score_cm_go]
    | cons b tl ih =>
      intro rem hrem
      simp only [List.flatten_cons, List.length_append] at hrem
      have hb : b.length ≤ rem := by omega
      have hz : rem - b.length ≠ 0 := by omega
      simp only [check_score_cm_go, hn, if_false, hb, if_true, hz]
      simp [ih (rem - b.length) (by omega)]
  exact key batches n (by simpa using h)

/-! ### Theorems for C3 and C10 (sample limiting) -/

/-- C3: with `num_samples = 0`, `check_score_cm` accumulates the label pairs
of every example of every batch; with `num_samples = n > 0` it accumulates
exactly `min n (dataset size)` pairs, taking whole batches while they fit,
truncating the final batch to exactly fill the limit, and stopping; with
`n = 5` and batches of size 4 and 4 it takes 4 pairs then exactly 1 more,
consuming only 2 batches. -/
theorem check_score_cm_sample_limit :
    (∀ (P : Type) (batches : List (List P)),
      check_score_cm_pairs 0 batches = (batches.flatten, batches.length)) ∧
    (∀ (P : Type) (n : ℕ) (batches : List (List P)), 0 < n →
      ((check_score_cm_pairs n batches).1).length = min n batches.flatten.length) ∧
    (∀ (P : Type) (n rem : ℕ) (b : List P) (bs : List (List P)),
      0 < n → b.length < rem →
      check_score_cm_go n rem (b :: bs) =
        (b ++ (check_score_cm_go n (rem - b.length) bs).1,
          (check_score_cm_go n (rem - b.length) bs).2 + 1)) ∧
    (∀ (P : Type) (n rem : ℕ) (b : List P) (bs : List (List P)),
      0 < n → 0 < rem → rem < b.length →
      check_score_cm_go n rem (b :: bs) = (b.take rem, 1)) ∧
    check_score_cm_pairs 5 [[0, 1, 2, 3], [4, 5, 6, 7]] = ([0, 1, 2, 3, 4], 2) ∧
    check_score_cm_pairs 5 [[0, 1, 2, 3], [4, 5, 6, 7], [8, 9, 10, 11]] =
      ([0, 1, 2, 3, 4], 2) := by
  refine ⟨fun P batches => check_score_cm_go_all 0 batches,
    fun P n batches hn => check_score_cm_go_length n batches hn,
    ?_, ?_, by decide, by decide⟩
  · intro P n rem b bs hn hlt
    have hb : b.length ≤ rem := by omega
    have hz : rem - b.length ≠ 0 := by omega
    simp [check_score_cm_go, hn.ne', hb, hz]
  · intro P n rem b bs hn hrem hlt
    have hb : ¬ b.length ≤ rem := by omega
    simp [check_score_cm_go, hn.ne', hb]

/-- Witness for the sample-limit theorem: limit `3` over batches of sizes
`2` and `2` collects `min 3 4 = 3` pairs; a batch of size `2` fitting under
a remaining budget of `5` is taken whole. -/
theorem check_score_cm_sample_limit_witness :
    ((check_score_cm_pairs 3 [[10, 20], [30, 40]]).1).length =
      min 3 ([[10, 20], [30, 40]] : List (List ℕ)).flatten.length ∧
    check_score_cm_go 5 5 [[10, 20], [30, 40]] =
      ([10, 20] ++ (check_score_cm_go 5 (5 - 2) [[30, 40]]).1,
        (check_score_cm_go 5 (5 - 2) [[30, 40]]).2 + 1) :=
  ⟨check_score_cm_sample_limit.2.1 ℕ 3 [[10, 20], [30, 40]] (by decide),
   by
    have h := check_score_cm_sample_limit.2.2.1 ℕ 5 5 [10, 20] [[30, 40]]
      (by decide) (by decide)
    simpa using h⟩

/-- C10: when `num_samples` exceeds the dataset size the limit is only an
upper bound: the loop exhausts all batches, collects every label pair, and
the score is computed over all of them. -/
theorem check_score_cm_over_limit :
    ∀ (n : ℕ) (batches : List (List ℕ)) (score : List ℕ → ℕ),
      batches.flatten.length < n →
      check_score_cm_pairs n batches = (batches.flatten, batches.length) ∧
      check_score_cm score n batches = score batches.flatten := by
  intro n batches score h
  have hgo := check_score_cm_go_over n batches h
  exact ⟨hgo, by simp [check_score_cm, check_score_cm_pairs, hgo]⟩

/-- Witness for the over-limit theorem: limit `9` over a dataset of `3`
examples collects all `3` pairs from both batches. -/
theorem check_score_cm_over_limit_witness :
    check_score_cm_pairs 9 [[0, 1], [2]] = (([[0, 1], [2]] : List (List ℕ)).flatten, 2) ∧
    check_score_cm List.sum 9 [[0, 1], [2]] = List.sum ([[0, 1], [2]] : List (List ℕ)).flatten :=
  check_score_cm_over_limit 9 [[0, 1], [2]] List.sum (by decide)

/-! ### Early stopping on dev score and dev loss
(`QAModel.custom_train`, lines 561-570)

`best_subm_score` and `lowest_dev_loss` both start as `None`.  After each
evaluation: if `best_subm_score is None or dev_score > best_subm_score`, the
best score is updated and `bestmodel_saver` saves; independently, if
`lowest_dev_loss is None or dev_loss < lowest_dev_loss`, the lowest loss is
updated and `bestmodel_dev_loss_saver` saves. -/

structure EvalState where
  best_subm_score : Option ℚ
  lowest_dev_loss : Option ℚ
deriving DecidableEq

def should_save_best_score (best : Option ℚ) (dev_score : ℚ) : Bool :=
  match best with
  | none => true
  | some b => decide (b < dev_score)

def should_save_best_loss (lowest : Option ℚ) (dev_loss : ℚ) : Bool :=
  match lowest with
  | none => true
  | some l => decide (dev_loss < l)

/-- One evaluation point's early-stopping block: returns the updated state
and the pair (saved best-by-score?, saved best-by-loss?). -/
def eval_early_stopping (st : EvalState) (dev_score dev_loss : ℚ) :
    EvalState × Bool × Bool :=
  let saveScore := should_save_best_score st.best_subm_score dev_score
  let st1 := if saveScore then { st with best_subm_score := some dev_score } else st
  let saveLoss := should_save_best_loss st1.lowest_dev_loss dev_loss
  let st2 := if saveLoss then { st1 with lowest_dev_loss := some dev_loss } else st1
  (st2, saveScore, saveLoss)

theorem eval_early_stopping_flags (st : EvalState) (s l : ℚ) :
    (eval_early_stopping st s l).2.1 = should_save_best_score st.best_subm_score s ∧
    (eval_early_stopping st s l).2.2 = should_save_best_loss st.lowest_dev_loss l := by
  rcases st with ⟨bs, ll⟩
  by_cases h : should_save_best_score bs s <;> simp [eval_early_stopping, h]

/-! ### Theorem for C4 (independent best-by-score / best-by-loss saves) -/

/-- C4: the best-by-score checkpoint is saved iff the dev score strictly
exceeds the best so far (or none exists yet); the best-by-loss checkpoint is
saved iff the dev loss is strictly below the lowest so far (or none yet);
the score flag does not depend on the dev loss and the loss flag does not
depend on the dev score, so one evaluation can trigger zero, one, or both
saves (witnessed by the four concrete evaluations). -/
theorem early_stopping_independent_criteria :
    (∀ (st : EvalState) (s l : ℚ), ((eval_early_stopping st s l).2.1 = true ↔
      (st.best_subm_score = none ∨ ∃ b, st.best_subm_score = some b ∧ b < s))) ∧
    (∀ (st : EvalState) (s l : ℚ), ((eval_early_stopping st s l).2.2 = true ↔
      (st.lowest_dev_loss = none ∨ ∃ c, st.lowest_dev_loss = some c ∧ l < c))) ∧
    (∀ (st : EvalState) (s l lo : ℚ),
      (eval_early_stopping st s l).2.1 = (eval_early_stopping st s lo).2.1) ∧
    (∀ (st : EvalState) (s so l : ℚ),
      (eval_early_stopping st s l).2.2 = (eval_early_stopping st so l).2.2) ∧
    eval_early_stopping ⟨some 10, some 5⟩ 9 3 = (⟨some 10, some 3⟩, false, true) ∧
    eval_early_stopping ⟨some 10, some 5⟩ 11 9 = (⟨some 11, some 5⟩, true, false) ∧
    eval_early_stopping ⟨some 10, some 5⟩ 11 3 = (⟨some 11, some 3⟩, true, true) ∧
    eval_early_stopping ⟨some 10, some 5⟩ 9 9 = (⟨some 10, some 5⟩, false, false) := by
  refine ⟨?_, ?_, ?_, ?_, by decide, by decide, by decide, by decide⟩
  · intro st s l
    rw [(eval_early_stopping_flags st s l).1]
    cases h : st.best_subm_score <;> simp [should_save_best_score]
  · intro st s l
    rw [(eval_early_stopping_flags st s l).2]
    cases h : st.lowest_dev_loss <;> simp [should_save_best_loss]
  · intro st s l lo
    rw [(eval_early_stopping_flags st s l).1, (eval_early_stopping_flags st s lo).1]
  · intro st s so l
    rw [(eval_early_stopping_flags st s l).2, (eval_early_stopping_flags st so l).2]

/-- Witness: with no best recorded yet, both slots save. -/
theorem early_stopping_independent_criteria_witness :
    (eval_early_stopping ⟨none, none⟩ 1 2).2.1 = true ∧
    (eval_early_stopping ⟨none, none⟩ 1 2).2.2 = true :=
  ⟨(early_stopping_independent_criteria.1 ⟨none, none⟩ 1 2).mpr (Or.inl rfl),
   (early_stopping_independent_criteria.2.1 ⟨none, none⟩ 1 2).mpr (Or.inl rfl)⟩

/-! ### Checkpoint slot retention (`QAModel.__init__`, lines 77-80)

The code configures three `tf.train.Saver`s: `saver` with
`max_to_keep=FLAGS.keep` for the most-recent slot, and `bestmodel_saver` and
`bestmodel_dev_loss_saver` with `max_to_keep=1`. -/

/-- Saver retention configuration from `QAModel.__init__` (lines 78-80):
most-recent slot keeps `FLAGS.keep`, each best slot keeps 1. -/
def saver_max_to_keep (keep : ℕ) : ℕ × ℕ × ℕ := (keep, 1, 1)

/-- Modelled from the spec: the Checkpoint Manager slot semantics
(`tf.train.Saver`'s `max_to_keep` eviction is framework code, not part of
this repository's sources).  A save tags the current step onto the slot and
evicts the oldest entries beyond the slot's retention count. -/
def slot_save (retention : ℕ) (slot : List ℕ) (step : ℕ) : List ℕ :=
  let slot1 := slot ++ [step]
  slot1.drop (slot1.length - retention)

/-- A sequence of saves into one slot, starting empty. -/
def slot_save_all (retention : ℕ) (steps : List ℕ) : List ℕ :=
  steps.foldl (slot_save retention) []

/-! ### Theorem for C5 (bounded retention per slot) -/

/-- C5: a slot never holds more than its retention count; saving steps
`[1,2,3,4]` into a slot with retention 3 leaves exactly `[2,3,4]`; the best
slots are configured with retention 1 and, after any save, a retention-1
slot holds exactly the last step saved. -/
theorem checkpoint_slot_retention :
    (∀ retention slot step, (slot_save retention slot step).length ≤ retention) ∧
    slot_save_all 3 [1, 2, 3, 4] = [2, 3, 4] ∧
    (∀ keep, (saver_max_to_keep keep).1 = keep ∧ (saver_max_to_keep keep).2.1 = 1 ∧
      (saver_max_to_keep keep).2.2 = 1) ∧
    (∀ steps best_step, slot_save_all 1 (steps ++ [best_step]) = [best_step]) := by
  have hone : ∀ slot step, slot_save 1 slot step = [step] := by
    intro slot step
    simp only [slot_save, List.length_append, List.length_cons, List.length_nil]
    rw [show slot.length + (0 + 1) - 1 = slot.length by omega]
    exact List.drop_left slot [step]
  refine ⟨?_, by decide, fun keep => ⟨rfl, rfl, rfl⟩, ?_⟩
  · intro retention slot step
    simp only [slot_save, List.length_drop, List.length_append]
    omega
  · intro steps best_step
    simp only [slot_save_all, List.foldl_append, List.foldl_cons, List.foldl_nil]
    exact hone _ best_step

/-- Witness: a retention-3 slot holding `[2,3,4]` stays within bound after a
new save, and a retention-1 slot retains only the newest step. -/
theorem checkpoint_slot_retention_witness :
    (slot_save 3 [2, 3, 4] 5).length ≤ 3 ∧
    slot_save_all 1 ([10, 20] ++ [30]) = [30] :=
  ⟨checkpoint_slot_retention.1 3 [2, 3, 4] 5,
   checkpoint_slot_retention.2.2.2 [10, 20] 30⟩

/-! ### Epoch budget (`QAModel.custom_train`, lines 505-506)

`while self.FLAGS.num_epochs == 0 or epoch < self.FLAGS.num_epochs:
epoch += 1; ...` with `epoch` starting at 0. -/

def train_loop_guard (num_epochs epoch : ℕ) : Bool :=
  decide (num_epochs = 0) || decide (epoch < num_epochs)

/-- The `while` loop, run with a fuel bound on the number of guard checks;
returns the number of epochs whose bodies executed. -/
def train_epochs_from (num_epochs : ℕ) : ℕ → ℕ → ℕ
  | 0, epoch => epoch
  | fuel + 1, epoch =>
    if train_loop_guard num_epochs epoch then train_epochs_from num_epochs fuel (epoch + 1)
    else epoch

def train_epochs (num_epochs fuel : ℕ) : ℕ := train_epochs_from num_epochs fuel 0

theorem train_epochs_from_zero_budget (fuel : ℕ) :
    ∀ epoch, train_epochs_from 0 fuel epoch = epoch + fuel := by
  induction fuel with
  | zero => intro epoch; simp [train_epochs_from]
  | succ f ih =>
    intro epoch
    simp only [train_epochs_from, train_loop_guard]
    simp [ih (epoch + 1)]
    omega

theorem train_epochs_from_pos_budget (n : ℕ) (hn : 0 < n) :
    ∀ fuel epoch, epoch ≤ n → n - epoch ≤ fuel → train_epochs_from n fuel epoch = n := by
  intro fuel
  induction fuel with
  | zero =>
    intro epoch h1 h2
    have he : epoch = n := by omega
    simp [train_epochs_from, he]
  | succ f ih =>
    intro epoch h1 h2
    by_cases h : epoch < n
    · have hg : train_loop_guard n epoch = true := by simp [train_loop_guard, hn.ne', h]
      simp only [train_epochs_from, hg, if_true]
      exact ih (epoch + 1) (by omega) (by omega)
    · have he : epoch = n := by omega
      simp [train_epochs_from, train_loop_guard, hn.ne', he]

/-! ### Theorem for C6 (epoch budget) -/

/-- C6: with a positive budget `n` the training loop executes exactly `n`
epochs (for any fuel at least `n`); with budget 0 the guard is always true,
so the loop consumes every unit of fuel and never terminates on its own. -/
theorem train_epoch_budget :
    (∀ n fuel, 0 < n → n ≤ fuel → train_epochs n fuel = n) ∧
    (∀ fuel, train_epochs 0 fuel = fuel) ∧
    (∀ epoch, train_loop_guard 0 epoch = true) ∧
    (∀ n epoch, 0 < n → (train_loop_guard n epoch = true ↔ epoch < n)) := by
  refine ⟨?_, ?_, ?_, ?_⟩
  · intro n fuel hn hf
    exact train_epochs_from_pos_budget n hn fuel 0 (by omega) (by omega)
  · intro fuel
    simpa using train_epochs_from_zero_budget fuel 0
  · intro epoch
    simp [train_loop_guard]
  · intro n epoch hn
    simp [train_loop_guard, hn.ne']

/-- Witness: a budget of 2 epochs with fuel 5 runs exactly 2 epochs, and the
zero budget consumes all of a fuel of 7. -/
theorem train_epoch_budget_witness :
    train_epochs 2 5 = 2 ∧ train_epochs 0 7 = 7 :=
  ⟨train_epoch_budget.1 2 5 (by decide) (by decide), train_epoch_budget.2.1 7⟩

/-! ### Error propagation in the training loop
(`QAModel.custom_train`, lines 466-584)

The Python loop body contains no `try`/`except`: a failure raised by
`run_train_iter`, `saver.save`, `custom_get_dev_loss`, `check_score_cm`, or
either best-model save propagates out of `custom_train` and ends the run.
The fallible collaborators are embedded as `Except`-valued operations,
composed exactly as the loop body composes them, with no handler anywhere. -/

structure TrainOps (E : Type) where
  runIter : ℕ → Except E ℚ
  saveCheckpoint : ℕ → Except E Unit
  getDevLoss : Except E ℚ
  scoreCm : ℕ → Except E ℚ
  saveBestScore : Except E Unit
  saveBestDevLoss : Except E Unit

structure TrainLoopState where
  exp_loss : Option ℚ
  best_subm_score : Option ℚ
  lowest_dev_loss : Option ℚ
deriving DecidableEq

structure TrainFlags where
  save_every : ℕ
  eval_every : ℕ
deriving DecidableEq

/-- One iteration of the batch loop: train step, smoothed-loss update, then
the scheduled checkpoint save and the scheduled evaluation block with its
two early-stopping saves. -/
def train_batch_body {E : Type} (flags : TrainFlags) (ops : TrainOps E)
    (st0 : TrainLoopState) (global_step : ℕ) : Except E TrainLoopState := do
  let loss ← ops.runIter global_step
  let st := { st0 with exp_loss := some (update_exp_loss st0.exp_loss loss) }
  if global_step % flags.save_every = 0 then
    ops.saveCheckpoint global_step
  if global_step % flags.eval_every = 0 then
    let dev_loss ← ops.getDevLoss
    let _train_score ← ops.scoreCm 1000
    let dev_score ← ops.scoreCm 0
    let saveScore := should_save_best_score st.best_subm_score dev_score
    let st := if saveScore then { st with best_subm_score := some dev_score } else st
    if saveScore then
      ops.saveBestScore
    let saveLoss := should_save_best_loss st.lowest_dev_loss dev_loss
    let st := if saveLoss then { st with lowest_dev_loss := some dev_loss } else st
    if saveLoss then
      ops.saveBestDevLoss
    pure st
  else
    pure st

/-- The batch loop of `custom_train` over the steps of one epoch. -/
def custom_train_batches {E : Type} (flags : TrainFlags) (ops : TrainOps E)
    (st : TrainLoopState) (steps : List ℕ) : Except E TrainLoopState :=
  steps.foldlM (train_batch_body flags ops) st

theorem foldlM_except_append {σ α E : Type} (f : σ → α → Except E σ)
    (l1 l2 : List α) (s : σ) :
    (l1 ++ l2).foldlM f s = (l1.foldlM f s).bind fun t => l2.foldlM f t := by
  induction l1 generalizing s with
  | nil => rfl
  | cons a tl ih =>
    simp only [List.cons_append, List.foldlM_cons]
    cases h : f s a with
    | error e => rfl
    | ok t => exact ih t

/-! ### Theorem for C7 (failures are not caught) -/

/-- C7: no failure during the training loop is recovered: if every batch
before position `k` succeeds and the loop body fails on the `k`-th batch
with error `e` (during its train step, scheduled save, or evaluation), the
whole loop returns exactly `error e`, whatever batches follow. -/
theorem train_error_propagates :
    ∀ (E : Type) (flags : TrainFlags) (ops : TrainOps E)
      (st st1 : TrainLoopState) (pre post : List ℕ) (s : ℕ) (e : E),
      custom_train_batches flags ops st pre = Except.ok st1 →
      train_batch_body flags ops st1 s = Except.error e →
      custom_train_batches flags ops st (pre ++ s :: post) = Except.error e := by
  intro E flags ops st st1 pre post s e hpre hbody
  unfold custom_train_batches at hpre ⊢
  rw [foldlM_except_append, hpre]
  show (s :: post).foldlM (train_batch_body flags ops) st1 = Except.error e
  rw [List.foldlM_cons, hbody]
  rfl

/-- Witness: with saves succeeding but the dev-loss evaluation failing with
error code 42 at step 1, the loop on steps `[1, 2]` returns that error. -/
theorem train_error_propagates_witness :
    custom_train_batches ⟨1, 1⟩
      ⟨fun _ => Except.ok 1, fun _ => Except.ok (), Except.error 42,
        fun _ => Except.ok 0, Except.ok (), Except.ok ()⟩
      ⟨none, none, none⟩ ([] ++ 1 :: [2]) = Except.error 42 :=
  train_error_propagates ℕ ⟨1, 1⟩
    ⟨fun _ => Except.ok 1, fun _ => Except.ok (), Except.error 42,
      fun _ => Except.ok 0, Except.ok (), Except.ok ()⟩
    ⟨none, none, none⟩ ⟨none, none, none⟩ [] [2] 1 42 rfl rfl

/-! ### Dropout keep-probability at train vs. evaluation time
(`add_placeholders` line 100, `run_train_iter` line 272,
`get_loss` lines 298-308, `get_class_prob_dist` lines 359-367)

`self.keep_prob = tf.placeholder_with_default(1.0, shape=())`.
`run_train_iter` feeds `keep_prob = 1.0 - FLAGS.dropout`; `get_loss` and
`get_class_prob_dist` build their input feeds without `keep_prob`, so it
takes its default of 1. -/

structure Batch where
  body_ids : List (List ℕ)
  body_mask : List (List ℕ)
  headline_ids : List (List ℕ)
  headline_mask : List (List ℕ)
  ans_span : List ℕ

structure InputFeed where
  context_ids : List (List ℕ)
  context_mask : List (List ℕ)
  qn_ids : List (List ℕ)
  qn_mask : List (List ℕ)
  stance : Option (List ℕ)
  keep_prob : Option ℚ

/-- The `input_feed` built by `run_train_iter` (lines 266-272): it is the
only forward pass that sets `keep_prob`, to `1.0 - FLAGS.dropout`. -/
def run_train_iter_feed (batch : Batch) (dropout : ℚ) : InputFeed :=
  ⟨batch.body_ids, batch.body_mask, batch.headline_ids, batch.headline_mask,
    some batch.ans_span, some (1 - dropout)⟩

/-- The `input_feed` built by `get_loss` (lines 298-304): no `keep_prob`. -/
def get_loss_feed (batch : Batch) : InputFeed :=
  ⟨batch.body_ids, batch.body_mask, batch.headline_ids, batch.headline_mask,
    some batch.ans_span, none⟩

/-- The `input_feed` built by `get_class_prob_dist` (lines 359-364):
no `stance` and no `keep_prob`. -/
def get_class_prob_dist_feed (batch : Batch) : InputFeed :=
  ⟨batch.body_ids, batch.body_mask, batch.headline_ids, batch.headline_mask,
    none, none⟩

/-- `tf.placeholder_with_default(1.0, shape=())`: the fed value if any,
else the default 1. -/
def keep_prob_value (fed : Option ℚ) : ℚ := fed.getD 1

/-- Modelled from the spec: `tf.nn.dropout` (framework code, not in this
repository's sources) keeps each unit when its uniform random draw in
`[0, 1)` falls below `keep_prob`, scaling kept units by `1 / keep_prob`. -/
def dropout_layer (keep : ℚ) (rng : ℕ → ℚ) : List ℚ → List ℚ
  | [] => []
  | x :: xs => (if rng 0 < keep then x / keep else 0) ::
      dropout_layer keep (fun i => rng (i + 1)) xs

/-- Modelled from the spec: the network forward pass, abstracted as
per-example linear scores with the single dropout site controlled by
`keep_prob`, summed to a scalar. -/
def model_forward (params : List ℚ) (ids : List (List ℕ)) (keep : ℚ)
    (rng : ℕ → ℚ) : ℚ :=
  (dropout_layer keep rng
    (ids.map fun row => (List.zipWith (fun (p : ℚ) (t : ℕ) => p * (t : ℚ)) params row).sum)).sum

/-- A `get_loss` session run: the keep probability is whatever
`get_loss_feed` supplies, resolved by the placeholder default. -/
def get_loss_run (params : List ℚ) (batch : Batch) (rng : ℕ → ℚ) : ℚ :=
  model_forward params batch.body_ids
    (keep_prob_value (get_loss_feed batch).keep_prob) rng

/-- A `get_class_prob_dist` session run. -/
def get_class_prob_dist_run (params : List ℚ) (batch : Batch) (rng : ℕ → ℚ) : ℚ :=
  model_forward params batch.body_ids
    (keep_prob_value (get_class_prob_dist_feed batch).keep_prob) rng

theorem dropout_layer_keep_all (v : List ℚ) :
    ∀ rng : ℕ → ℚ, (∀ i, rng i < 1) → dropout_layer 1 rng v = v := by
  induction v with
  | nil => intro rng _; rfl
  | cons x xs ih =>
    intro rng h
    show (if rng 0 < 1 then x / 1 else 0) :: dropout_layer 1 (fun i => rng (i + 1)) xs
      = x :: xs
    rw [if_pos (h 0), div_one, ih _ fun i => h (i + 1)]

/-! ### Theorem for C8 (evaluation runs without dropout, deterministically) -/

/-- C8: the evaluation-time feeds of `get_loss` and `get_class_prob_dist`
never supply `keep_prob`, so the placeholder takes its default 1; only
`run_train_iter` feeds `1 - dropout`; and with keep probability 1 the
forward pass ignores the dropout randomness, so two runs on the same
parameters and batch yield the same loss and class distribution. -/
theorem eval_time_no_dropout_deterministic :
    (∀ batch, (get_loss_feed batch).keep_prob = none) ∧
    (∀ batch, (get_class_prob_dist_feed batch).keep_prob = none) ∧
    (∀ batch dropout,
      (run_train_iter_feed batch dropout).keep_prob = some (1 - dropout)) ∧
    keep_prob_value none = 1 ∧
    (∀ (params : List ℚ) (batch : Batch) (rng1 rng2 : ℕ → ℚ),
      (∀ i, 0 ≤ rng1 i ∧ rng1 i < 1) → (∀ i, 0 ≤ rng2 i ∧ rng2 i < 1) →
      get_loss_run params batch rng1 = get_loss_run params batch rng2 ∧
      get_class_prob_dist_run params batch rng1 =
        get_class_prob_dist_run params batch rng2) := by
  refine ⟨fun _ => rfl, fun _ => rfl, fun _ _ => rfl, rfl, ?_⟩
  intro params batch rng1 rng2 h1 h2
  constructor
  · show (dropout_layer 1 rng1 _).sum = (dropout_layer 1 rng2 _).sum
    rw [dropout_layer_keep_all _ rng1 fun i => (h1 i).2,
      dropout_layer_keep_all _ rng2 fun i => (h2 i).2]
  · show (dropout_layer 1 rng1 _).sum = (dropout_layer 1 rng2 _).sum
    rw [dropout_layer_keep_all _ rng1 fun i => (h1 i).2,
      dropout_layer_keep_all _ rng2 fun i => (h2 i).2]

/-- Witness: two evaluation runs with different dropout randomness agree on
a concrete parameter vector and batch. -/
theorem eval_time_no_dropout_deterministic_witness :
    get_loss_run [1] ⟨[[2]], [], [], [], []⟩ (fun _ => 0) =
      get_loss_run [1] ⟨[[2]], [], [], [], []⟩ (fun _ => 1 / 2) :=
  (eval_time_no_dropout_deterministic.2.2.2.2 [1] ⟨[[2]], [], [], [], []⟩
    (fun _ => 0) (fun _ => 1 / 2)
    (fun _ => ⟨le_refl 0, by norm_num⟩)
    (fun _ => ⟨by norm_num, by norm_num⟩)).1

/-! ### Theorem for C9 (unguarded division on an empty dev set) -/

/-- C9: `custom_get_dev_loss` divides the summed weighted losses by the
total example count with no guard: on an empty dev batch sequence (or any
sequence contributing zero examples) the division by zero fails and no value
is returned, while any batch sequence with at least one example yields a
value. -/
theorem dev_loss_empty_division_fails :
    custom_get_dev_loss [] = none ∧
    (∀ batches : List (ℚ × ℕ), (batches.map fun b : ℚ × ℕ => b.2).sum = 0 →
      custom_get_dev_loss batches = none) ∧
    (∀ (l : ℚ) (s : ℕ) (rest : List (ℚ × ℕ)), 0 < s →
      (custom_get_dev_loss ((l, s) :: rest)).isSome = true) := by
  refine ⟨rfl, ?_, ?_⟩
  · intro batches h
    simp [custom_get_dev_loss, h]
  · intro l s rest hs
    simp only [custom_get_dev_loss, List.map_cons, List.sum_cons]
    split
    · exfalso
      omega
    · rfl

/-- Witness: a batch sequence of zero total size yields no value; a single
batch of 4 examples yields one. -/
theorem dev_loss_empty_division_fails_witness :
    custom_get_dev_loss [((3 : ℚ), 0)] = none ∧
    (custom_get_dev_loss [((2 : ℚ), 4)]).isSome = true :=
  ⟨dev_loss_empty_division_fails.2.1 [(3, 0)] (by decide),
   dev_loss_empty_division_fails.2.2 2 4 [] (by decide)⟩
